import Mathlib

/-!
Shallow embedding of the REMP core of Everscale-zk/evs-node:
`src/validator/message_cache.rs` and `src/validator/remp_catchain.rs`.

Identifier-like values (256-bit hashes, key ids, block ids, shard idents) are
only ever compared for equality by the embedded code, so they are modelled as
wrappers around `Nat` with decidable equality.  `u32` fields are modelled as
`Nat`; where the Rust code performs `u32` arithmetic that can overflow, the
model takes the result modulo `2^32` (release-profile wrapping semantics).
Maps (`HashMap`) are modelled as association lists with first-key lookup,
replace-on-insert and erase-on-remove; `len()` is list length.
-/

namespace Evs

/-- 256-bit hash (`ton_types::UInt256`); only equality is used. -/
structure UInt256 where
  val : Nat
deriving DecidableEq, Repr

/-- `ever_crypto::KeyId`: a 256-bit key identifier; interconvertible with
`UInt256` via `KeyId::from_data` / `UInt256::from(key.data())`, which the
model treats as the identity on the underlying value. -/
structure KeyId where
  val : Nat
deriving DecidableEq, Repr

/-- `ton_block::BlockIdExt`; only equality and `Default::default()` are used. -/
structure BlockIdExt where
  val : Nat
deriving DecidableEq, Repr

instance : Inhabited BlockIdExt := ⟨⟨0⟩⟩

/-- `BlockIdExt::default()`. -/
def BlockIdExt.default : BlockIdExt := ⟨0⟩

/-- `ton_block::ShardIdent`; only equality is used. -/
structure ShardIdent where
  val : Nat
deriving DecidableEq, Repr

/-- `ton_block::Message`, modelled by its serialized byte string: the external
codec `Message::write_to_bytes` / `Message::construct_from_bytes` (crate
`ton_block`, outside this repository) is assumed lossless, i.e. the identity
on this representation. -/
structure Message where
  bytes : List Nat
deriving DecidableEq, Repr

/-- `RempMessageLevel` (TL enum). -/
inductive RempMessageLevel
  | Collator
  | Shardchain
  | Masterchain
deriving DecidableEq, Repr

/-- `rempmessagestatus::RempAccepted`. -/
structure RempAccepted where
  level : RempMessageLevel
  block_id : BlockIdExt
  master_id : BlockIdExt
deriving DecidableEq, Repr

/-- `rempmessagestatus::RempRejected`. -/
structure RempRejected where
  level : RempMessageLevel
  block_id : BlockIdExt
  error : String
deriving DecidableEq, Repr

/-- `rempmessagestatus::RempIgnored`. -/
structure RempIgnored where
  level : RempMessageLevel
  block_id : BlockIdExt
deriving DecidableEq, Repr

/-- `rempmessagestatus::RempDuplicate`. -/
structure RempDuplicate where
  block_id : BlockIdExt
deriving DecidableEq, Repr

/-- `ton_api::ton::ton_node::RempMessageStatus`. -/
inductive RempMessageStatus
  | New
  | Accepted (a : RempAccepted)
  | Rejected (r : RempRejected)
  | Ignored (i : RempIgnored)
  | Duplicate (d : RempDuplicate)
  | Timeout
deriving DecidableEq, Repr

/-- `engine_traits::RempDuplicateStatus`. -/
inductive RempDuplicateStatus
  | Absent
  | Fresh
  | Duplicate (block_id : BlockIdExt)
deriving DecidableEq, Repr

/-- `message_cache::RmqMessage`.  `source_idx`, `timestamp` and
`master_cc_seqno` are `u32` in the source, modelled as `Nat`. -/
structure RmqMessage where
  message : Message
  message_id : UInt256
  source_key : KeyId
  source_idx : Nat
  timestamp : Nat
  master_cc_seqno : Nat
deriving DecidableEq, Repr

/-- `RmqMessage::is_expired`: `self.master_cc_seqno + 2 <= current_cc_seqno`
with `u32` addition, which wraps modulo `2^32`. -/
def RmqMessage.is_expired (m : RmqMessage) (current_cc_seqno : Nat) : Bool :=
  (m.master_cc_seqno + 2) % 2 ^ 32 ≤ current_cc_seqno

/-- `rmqrecordstatus` (TL): the reduced on-wire status. -/
inductive RmqRecordStatus
  | RmqNew
  | RmqAccepted (block_id : BlockIdExt)
  | RmqRejected (block_id : BlockIdExt) (error : String)
deriving DecidableEq, Repr

/-- `rmqrecord::RmqRecord` (TL): the on-wire record.  The outer TL byte codec
(`catchain::utils::serialize_tl_boxed_object` / `deserialize_tl_boxed_object`,
outside this repository) is assumed lossless, so serialization is modelled as
producing this structure.  `source_idx` is stored as `i32` (`Int`). -/
structure RmqRecord where
  message : List Nat
  message_id : UInt256
  source_key_id : UInt256
  source_idx : Int
  status : RmqRecordStatus
deriving DecidableEq, Repr

/-- The `self.source_idx as i32` cast in `RmqMessage::serialize`. -/
def u32_to_i32 (x : Nat) : Int :=
  if x < 2 ^ 31 then (x : Int) else (x : Int) - 2 ^ 32

/-- The `*rmq_record.source_idx() as u32` cast in `RmqMessage::deserialize`. -/
def i32_to_u32 (x : Int) : Nat :=
  (x % 2 ^ 32).toNat

/-- `RmqMessage::serialize` (the status-reduction match): `New` stays `New`,
`Accepted`/`Rejected` at level `Collator` keep their payload, every other
status is written as `RmqNew` (with an error log in the source). -/
def RmqMessage.serialize_status (status : RempMessageStatus) : RmqRecordStatus :=
  match status with
  | RempMessageStatus.New => RmqRecordStatus.RmqNew
  | RempMessageStatus.Accepted a =>
      if a.level = RempMessageLevel.Collator then RmqRecordStatus.RmqAccepted a.block_id
      else RmqRecordStatus.RmqNew
  | RempMessageStatus.Rejected r =>
      if r.level = RempMessageLevel.Collator then RmqRecordStatus.RmqRejected r.block_id r.error
      else RmqRecordStatus.RmqNew
  | _ => RmqRecordStatus.RmqNew

/-- `RmqMessage::serialize`, up to the external TL byte codec. -/
def RmqMessage.serialize (m : RmqMessage) (status : RempMessageStatus) : RmqRecord :=
  { message := m.message.bytes
    message_id := m.message_id
    source_key_id := ⟨m.source_key.val⟩
    source_idx := u32_to_i32 m.source_idx
    status := RmqMessage.serialize_status status }

/-- `RmqMessage::deserialize`, up to the external TL byte codec.  `now` is the
decoder's clock (`Self::timestamp_now()`); `master_cc_seqno` is supplied by
the caller.  The decoded status is lifted back with level `Collator` and
(for `Accepted`) `master_id = BlockIdExt::default()`. -/
def RmqMessage.deserialize (raw : RmqRecord) (master_cc_seqno : Nat) (now : Nat) :
    RmqMessage × RempMessageStatus :=
  let msg : RmqMessage :=
    { message := ⟨raw.message⟩
      message_id := raw.message_id
      source_key := ⟨raw.source_key_id.val⟩
      source_idx := i32_to_u32 raw.source_idx
      timestamp := now
      master_cc_seqno := master_cc_seqno }
  let status : RempMessageStatus :=
    match raw.status with
    | RmqRecordStatus.RmqNew => RempMessageStatus.New
    | RmqRecordStatus.RmqAccepted b =>
        RempMessageStatus.Accepted
          { level := RempMessageLevel.Collator, block_id := b, master_id := BlockIdExt.default }
    | RmqRecordStatus.RmqRejected b e =>
        RempMessageStatus.Rejected
          { level := RempMessageLevel.Collator, block_id := b, error := e }
  (msg, status)

/-! ### Association-list model of `HashMap<UInt256, α>` -/

/-- `HashMap::get`. -/
def lookupA {α : Type} : List (UInt256 × α) → UInt256 → Option α
  | [], _ => none
  | (k, v) :: rest, key => if k = key then some v else lookupA rest key

/-- `HashMap::contains_key`. -/
def containsA {α : Type} (l : List (UInt256 × α)) (key : UInt256) : Bool :=
  (lookupA l key).isSome

/-- `HashMap::insert`: replace the binding if the key is present, else append. -/
def insertA {α : Type} : List (UInt256 × α) → UInt256 → α → List (UInt256 × α)
  | [], key, v => [(key, v)]
  | (k, v') :: rest, key, v =>
      if k = key then (key, v) :: rest else (k, v') :: insertA rest key v

/-- `HashMap::remove` (erases every binding of the key). -/
def removeA {α : Type} (l : List (UInt256 × α)) (key : UInt256) : List (UInt256 × α) :=
  l.filter (fun kv => kv.1 ≠ key)

/-! ### Message cache -/

/-- `message_cache::MessageCacheImpl` (telemetry compiled out). -/
structure MessageCacheImpl where
  messages : List (UInt256 × RmqMessage)
  message_shards : List (UInt256 × ShardIdent)
  message_statuses : List (UInt256 × RempMessageStatus)
deriving DecidableEq, Repr

/-- `MessageCacheImpl::new`. -/
def MessageCacheImpl.new : MessageCacheImpl :=
  { messages := [], message_shards := [], message_statuses := [] }

/-- Modelled from the spec: `validate_status_change` lives in
`crate::ext_messages`, which is not under `src/`.  §4.1 "Status transition
legality (StatusTransitionTable)" lists the legal edges, which this predicate
implements verbatim; additionally the duplicate-detection rule of §4.1 stores
`Duplicate{block_id}` over a current `Accepted{Collator}` status through this
very predicate ("the stored status becomes `Duplicate{block_id=B_new}`"), so
the edge `Accepted{Collator} → Duplicate` is included as that rule requires. -/
def validate_status_change (old_status new_status : RempMessageStatus) : Bool :=
  match old_status, new_status with
  | RempMessageStatus.New, RempMessageStatus.Accepted a => a.level = RempMessageLevel.Collator
  | RempMessageStatus.New, RempMessageStatus.Rejected _ => true
  | RempMessageStatus.New, RempMessageStatus.Ignored _ => true
  | RempMessageStatus.New, RempMessageStatus.Timeout => true
  | RempMessageStatus.New, _ => false
  | RempMessageStatus.Accepted a, RempMessageStatus.Accepted a' =>
      (a.level = RempMessageLevel.Collator ∧
        (a'.level = RempMessageLevel.Shardchain ∨ a'.level = RempMessageLevel.Masterchain) ∧
        a'.block_id = a.block_id) ∨
      (a.level = RempMessageLevel.Shardchain ∧ a'.level = RempMessageLevel.Masterchain ∧
        a'.block_id = a.block_id)
  | RempMessageStatus.Accepted a, RempMessageStatus.Duplicate _ =>
      a.level = RempMessageLevel.Collator
  | RempMessageStatus.Accepted a, RempMessageStatus.Ignored _ =>
      a.level = RempMessageLevel.Collator
  | RempMessageStatus.Accepted a, RempMessageStatus.Timeout =>
      a.level = RempMessageLevel.Collator ∨ a.level = RempMessageLevel.Shardchain
  | RempMessageStatus.Accepted _, _ => false
  | RempMessageStatus.Rejected _, _ => false
  | RempMessageStatus.Duplicate _, _ => false
  | RempMessageStatus.Ignored _, RempMessageStatus.Accepted _ => true
  | RempMessageStatus.Ignored _, RempMessageStatus.Rejected _ => true
  | RempMessageStatus.Ignored _, RempMessageStatus.Duplicate _ => true
  | RempMessageStatus.Ignored _, RempMessageStatus.Timeout => true
  | RempMessageStatus.Ignored _, _ => false
  | RempMessageStatus.Timeout, _ => false

/-- `MessageCacheImpl::remove_message`. -/
def MessageCacheImpl.remove_message (c : MessageCacheImpl) (message_id : UInt256) :
    MessageCacheImpl :=
  { messages := removeA c.messages message_id
    message_shards := removeA c.message_shards message_id
    message_statuses := removeA c.message_statuses message_id }

/-- `MessageCacheImpl::update_message_status`: fails (leaving the state
unchanged) when the id is absent or the transition is rejected by
`validate_status_change`; otherwise overwrites the status. -/
def MessageCacheImpl.update_message_status (c : MessageCacheImpl) (message_id : UInt256)
    (new_status : RempMessageStatus) : Except String Unit × MessageCacheImpl :=
  match lookupA c.message_statuses message_id with
  | none => (Except.error "Message not found", c)
  | some old_status =>
      if validate_status_change old_status new_status then
        (Except.ok (),
          { c with message_statuses := insertA c.message_statuses message_id new_status })
      else
        (Except.error "cannot change status", c)

/-- The status proposed for an expired record in
`MessageCacheImpl::get_old_messages`: `None` for `Accepted{Masterchain}`,
`Rejected` and `Duplicate`, `Some(Timeout)` for everything else. -/
def oldMessageStatus (status : RempMessageStatus) : Option RempMessageStatus :=
  match status with
  | RempMessageStatus.Accepted a =>
      if a.level = RempMessageLevel.Masterchain then none
      else some RempMessageStatus.Timeout
  | RempMessageStatus.Rejected _ => none
  | RempMessageStatus.Duplicate _ => none
  | _ => some RempMessageStatus.Timeout

/-- `MessageCacheImpl::get_old_messages`: every stored record whose status is
present and which `is_expired` at `current_cc` is returned with its proposed
terminal status; a record whose status is missing (invariant violation) is
returned with `none` regardless of expiry, mirroring the source's error
branch. -/
def MessageCacheImpl.get_old_messages (c : MessageCacheImpl) (current_cc : Nat) :
    List (RmqMessage × Option RempMessageStatus) :=
  c.messages.filterMap (fun kv =>
    match lookupA c.message_statuses kv.1 with
    | some status =>
        if kv.2.is_expired current_cc then some (kv.2, oldMessageStatus status) else none
    | none => some (kv.2, none))

/-- The synchronous closure at the head of `MessageCache::update_message_status`:
returns the old block id when the current status is `Accepted` at level
`Collator`, and `none` otherwise. -/
def MessageCache.old_collator_block (c : MessageCacheImpl) (message_id : UInt256) :
    Option BlockIdExt :=
  match lookupA c.message_statuses message_id with
  | some (RempMessageStatus.Accepted acc) =>
      if acc.level = RempMessageLevel.Collator then some acc.block_id else none
  | _ => none

/-- `MessageCache::do_update_message_status` delegated to the impl, with the
result of the inner update turned into the outer `Result<Option<Status>>`. -/
def MessageCache.store_status (c : MessageCacheImpl) (message_id : UInt256)
    (status : RempMessageStatus) : Except String (Option RempMessageStatus) × MessageCacheImpl :=
  match MessageCacheImpl.update_message_status c message_id status with
  | (Except.ok _, c') => (Except.ok (some status), c')
  | (Except.error e, c') => (Except.error e, c')

/-- `MessageCache::update_message_status` (the public wrapper): duplicate
detection for a new `Accepted` status over a current `Accepted{Collator}` with
a different block id; silent drop (`Ok(None)`) of a new `Accepted` status over
a current `Duplicate`; otherwise store the new status through
`do_update_message_status` and return it. -/
def MessageCache.update_message_status (c : MessageCacheImpl) (message_id : UInt256)
    (new_status : RempMessageStatus) : Except String (Option RempMessageStatus) × MessageCacheImpl :=
  match new_status with
  | RempMessageStatus.Accepted acc_new =>
      match MessageCache.old_collator_block c message_id with
      | some old_block_id =>
          if (acc_new.level = RempMessageLevel.Shardchain ∨
              acc_new.level = RempMessageLevel.Masterchain) ∧
              acc_new.block_id ≠ old_block_id then
            let duplicate_status :=
              RempMessageStatus.Duplicate { block_id := acc_new.block_id }
            MessageCache.store_status c message_id duplicate_status
          else
            MessageCache.store_status c message_id new_status
      | none =>
          match lookupA c.message_statuses message_id with
          | some (RempMessageStatus.Duplicate _) => (Except.ok none, c)
          | _ => MessageCache.store_status c message_id new_status
  | _ => MessageCache.store_status c message_id new_status

/-- `MessageCache::get_message_status`. -/
def MessageCache.get_message_status (c : MessageCacheImpl) (message_id : UInt256) :
    Option RempMessageStatus :=
  lookupA c.message_statuses message_id

/-- `MessageCache::new_message_with_shard`: no-op returning `(false, len)` when
the id is present; otherwise insert the record into all three maps (status
`New`) and return `(true, len)` with the post-insertion length. -/
def MessageCache.new_message_with_shard (c : MessageCacheImpl) (message : RmqMessage)
    (shard : ShardIdent) : (Bool × Nat) × MessageCacheImpl :=
  if containsA c.messages message.message_id then
    ((false, c.messages.length), c)
  else
    let c' : MessageCacheImpl :=
      { messages := insertA c.messages message.message_id message
        message_statuses := insertA c.message_statuses message.message_id RempMessageStatus.New
        message_shards := insertA c.message_shards message.message_id shard }
    ((true, c'.messages.length), c')

/-- `MessageCache::check_message_duplicates`: `Duplicate(block_id)` for a
stored `Accepted` status at level `Shardchain` or `Masterchain`, `Fresh` for
any other stored status, `Absent` when the id is not cached. -/
def MessageCache.check_message_duplicates (c : MessageCacheImpl) (message_id : UInt256) :
    RempDuplicateStatus :=
  match MessageCache.get_message_status c message_id with
  | some (RempMessageStatus.Accepted acc) =>
      if acc.level = RempMessageLevel.Shardchain ∨ acc.level = RempMessageLevel.Masterchain then
        RempDuplicateStatus.Duplicate acc.block_id
      else
        RempDuplicateStatus.Fresh
  | some _ => RempDuplicateStatus.Fresh
  | none => RempDuplicateStatus.Absent

/-! ### REMP catchain (`remp_catchain.rs`) -/

/-- `catchain::CatchainNode`: transport id (`adnl_id`) and the id of the
public key. -/
structure CatchainNode where
  adnl_id : KeyId
  public_key : UInt256
deriving DecidableEq, Repr

/-- The node-list construction in `RempCatchainInfo::create`, on the already
converted catchain nodes (`validatordescr_to_catchain_node` is external): start
from the current set, build the set `adnl_hash` of its transport ids once, and
append every next-set node whose transport id is not in that set.  The set is
not extended while the loop runs. -/
def RempCatchainInfo.computeNodes (curr next : List CatchainNode) : List CatchainNode :=
  let adnl_hash : List KeyId := curr.map (fun nn => nn.adnl_id)
  next.foldl
    (fun nodes next_cn =>
      if adnl_hash.contains next_cn.adnl_id then nodes else nodes ++ [next_cn])
    curr

/-- The node list as the spec's words describe it (§4.3): "current set in
order, then every member of the next set whose transport-id is not already
present (deduplicated by transport-id while preserving first-seen order)" —
the membership test is against the list built so far. -/
def specNodeList (curr next : List CatchainNode) : List CatchainNode :=
  next.foldl
    (fun nodes next_cn =>
      if (nodes.map (fun nn => nn.adnl_id)).contains next_cn.adnl_id then nodes
      else nodes ++ [next_cn])
    curr

/-- `remp_catchain::RempCatchainStatus`. -/
inductive RempCatchainStatus
  | Created
  | Starting
  | Active
  | Stopping
deriving DecidableEq, Repr

/-- `remp_catchain::RempCatchainWrapper`: lifecycle status and refcount
(`count : u32`).  The `info` field (session identity and runtime handles) is
not inspected by the store transitions modelled here. -/
structure RempCatchainWrapper where
  status : RempCatchainStatus
  count : Nat
deriving DecidableEq, Repr

/-- `RempCatchainWrapper::detach`: decrement `count` (u32, wrapping) and
report whether it reached zero (`self.count <= 0` on a u32 is equality with
zero). -/
def RempCatchainWrapper.detach (w : RempCatchainWrapper) : RempCatchainWrapper × Bool :=
  let count := if w.count = 0 then 2 ^ 32 - 1 else w.count - 1
  ({ w with count := count }, count = 0)

/-- The store registry `RempCatchainStore.catchains`. -/
abbrev RempCatchainStoreState : Type := List (UInt256 × RempCatchainWrapper)

/-- The first `execute_sync` block of `RempCatchainStore::stop_catchain`:
absent entry or non-`Active` status fail without changes; otherwise `detach`;
on reaching zero, flip to `Stopping` and return `some ()` (standing for the
captured info and catchain handle); on a still-positive count return `none`,
keeping the entry `Active` with the decremented count. -/
def RempCatchainStore.stop_catchain_sync (store : RempCatchainStoreState)
    (session_id : UInt256) : Except String (Option Unit) × RempCatchainStoreState :=
  match lookupA store session_id with
  | some catchain =>
      if catchain.status ≠ RempCatchainStatus.Active then
        (Except.error "session should be in Active state", store)
      else
        let (w, reached_zero) := catchain.detach
        if reached_zero then
          (Except.ok (some ()),
            insertA store session_id { w with status := RempCatchainStatus.Stopping })
        else
          (Except.ok none, insertA store session_id w)
  | none => (Except.error "session not found", store)

/-- `RempCatchainStore::stop_catchain`: run the synchronous transition; when it
hands back the captured session, perform `RempCatchainInfo::stop` (external
engine and catchain calls, modelled as succeeding) and remove the entry; when
it returns `none` (refcount still positive) the call fails with "already
removed" while the decremented entry stays in the store. -/
def RempCatchainStore.stop_catchain (store : RempCatchainStoreState)
    (session_id : UInt256) : Except String Unit × RempCatchainStoreState :=
  match RempCatchainStore.stop_catchain_sync store session_id with
  | (Except.error e, s) => (Except.error e, s)
  | (Except.ok (some _), s) => (Except.ok (), removeA s session_id)
  | (Except.ok none, s) => (Except.error "REMP catchain session already removed", s)

/-! ### Association-list lemmas -/

theorem lookupA_insertA {α : Type} (l : List (UInt256 × α)) (k k' : UInt256) (v : α) :
    lookupA (insertA l k v) k' = if k = k' then some v else lookupA l k' := by
  induction l with
  | nil => simp [insertA, lookupA]
  | cons hd tl ih =>
      obtain ⟨k0, v0⟩ := hd
      by_cases h0 : k0 = k
      · subst h0
        by_cases h1 : k0 = k'
        · subst h1; simp [insertA, lookupA]
        · simp [insertA, lookupA, h1]
      · by_cases h1 : k0 = k'
        · subst h1
          have hkk : ¬ k = k0 := fun h => h0 h.symm
          simp [insertA, lookupA, h0, hkk]
        · simp [insertA, lookupA, h0, h1, ih]

theorem lookupA_insertA_self {α : Type} (l : List (UInt256 × α)) (k : UInt256) (v : α) :
    lookupA (insertA l k v) k = some v := by
  simp [lookupA_insertA]

theorem lookupA_removeA {α : Type} (l : List (UInt256 × α)) (k k' : UInt256) :
    lookupA (removeA l k) k' = if k' = k then none else lookupA l k' := by
  induction l with
  | nil => simp [removeA, lookupA]
  | cons hd tl ih =>
      obtain ⟨k0, v0⟩ := hd
      by_cases h0 : k0 = k
      · subst h0
        by_cases h1 : k0 = k'
        · subst h1; simpa [removeA, lookupA] using ih
        · have : ¬ k' = k0 := fun h => h1 h.symm
          simpa [removeA, lookupA, h1, this] using ih
      · by_cases h1 : k0 = k'
        · subst h1
          have : ¬ k0 = k := h0
          simp [removeA, lookupA, this, fun h => h0 h]
        · simpa [removeA, lookupA, h0, h1] using ih

theorem lookupA_isSome_of_mem {α : Type} {l : List (UInt256 × α)} {k : UInt256} {v : α}
    (h : (k, v) ∈ l) : (lookupA l k).isSome := by
  induction l with
  | nil => cases h
  | cons hd tl ih =>
      obtain ⟨k0, v0⟩ := hd
      rcases List.mem_cons.mp h with h | h
      · cases h; simp [lookupA]
      · by_cases h0 : k0 = k
        · simp [lookupA, h0]
        · simpa [lookupA, h0] using ih h

theorem length_insertA_of_not_contains {α : Type} (l : List (UInt256 × α)) (k : UInt256)
    (v : α) (h : containsA l k = false) : (insertA l k v).length = l.length + 1 := by
  induction l with
  | nil => simp [insertA]
  | cons hd tl ih =>
      obtain ⟨k0, v0⟩ := hd
      by_cases h0 : k0 = k
      · subst h0
        simp [containsA, lookupA] at h
      · simp [containsA, lookupA, h0] at h
        simp [insertA, h0, ih (by simp [containsA, h])]

/-! ### Concrete fixtures used by witnesses and counterexamples -/

/-- A sample cached message (shape of `RmqMessage::make_test_message`). -/
def sampleMsg : RmqMessage :=
  { message := ⟨[1, 2]⟩, message_id := ⟨1⟩, source_key := ⟨0⟩, source_idx := 0,
    timestamp := 0, master_cc_seqno := 5 }

/-- A one-entry cache whose message has status `Accepted{Collator, block 170}`. -/
def cacheAccCollator : MessageCacheImpl :=
  { messages := [(⟨1⟩, sampleMsg)]
    message_shards := [(⟨1⟩, ⟨0⟩)]
    message_statuses :=
      [(⟨1⟩, RempMessageStatus.Accepted ⟨RempMessageLevel.Collator, ⟨170⟩, ⟨0⟩⟩)] }

/-- A one-entry cache whose message has status `Duplicate{block 187}`. -/
def cacheDuplicate : MessageCacheImpl :=
  { cacheAccCollator with
    message_statuses := [(⟨1⟩, RempMessageStatus.Duplicate ⟨⟨187⟩⟩)] }

/-! ### Claim theorems -/

/-- C1: if the cached status of a message id is `Accepted{level=Collator,
block_id=B_old}` and `update_message_status` is called with
`Accepted{level∈{Shardchain,Masterchain}, block_id=B_new}` where
`B_new ≠ B_old`, then the call returns `Ok(Some(Duplicate{block_id=B_new}))`
and the stored status becomes `Duplicate{block_id=B_new}` (a `Duplicate`
constructor, so the proposed `Accepted` status itself is never stored). -/
theorem update_message_status_duplicate_detection
    (c : MessageCacheImpl) (id : UInt256) (acc acc_new : RempAccepted)
    (hold : lookupA c.message_statuses id = some (RempMessageStatus.Accepted acc))
    (hlvl : acc.level = RempMessageLevel.Collator)
    (hnew : acc_new.level = RempMessageLevel.Shardchain ∨
            acc_new.level = RempMessageLevel.Masterchain)
    (hne : acc_new.block_id ≠ acc.block_id) :
    (MessageCache.update_message_status c id (RempMessageStatus.Accepted acc_new)).1 =
      Except.ok (some (RempMessageStatus.Duplicate ⟨acc_new.block_id⟩)) ∧
    lookupA (MessageCache.update_message_status c id
        (RempMessageStatus.Accepted acc_new)).2.message_statuses id =
      some (RempMessageStatus.Duplicate ⟨acc_new.block_id⟩) := by
  have hob : MessageCache.old_collator_block c id = some acc.block_id := by
    simp [MessageCache.old_collator_block, hold, hlvl]
  have hval : validate_status_change (RempMessageStatus.Accepted acc)
      (RempMessageStatus.Duplicate ⟨acc_new.block_id⟩) = true := by
    simp [validate_status_change, hlvl]
  constructor
  · simp [MessageCache.update_message_status, hob, hnew, hne,
      MessageCache.store_status, MessageCacheImpl.update_message_status, hold, hval]
  · simp [MessageCache.update_message_status, hob, hnew, hne,
      MessageCache.store_status, MessageCacheImpl.update_message_status, hold, hval,
      lookupA_insertA_self]

/-- Witness for C1 at a concrete cache: status `Accepted{Collator, 170}`,
update with `Accepted{Shardchain, 187}`. -/
theorem update_message_status_duplicate_detection_witness :
    (MessageCache.update_message_status cacheAccCollator ⟨1⟩
        (RempMessageStatus.Accepted ⟨RempMessageLevel.Shardchain, ⟨187⟩, ⟨0⟩⟩)).1 =
      Except.ok (some (RempMessageStatus.Duplicate ⟨⟨187⟩⟩)) ∧
    lookupA (MessageCache.update_message_status cacheAccCollator ⟨1⟩
        (RempMessageStatus.Accepted ⟨RempMessageLevel.Shardchain, ⟨187⟩, ⟨0⟩⟩)).2.message_statuses
        ⟨1⟩ =
      some (RempMessageStatus.Duplicate ⟨⟨187⟩⟩) :=
  update_message_status_duplicate_detection cacheAccCollator ⟨1⟩
    ⟨RempMessageLevel.Collator, ⟨170⟩, ⟨0⟩⟩ ⟨RempMessageLevel.Shardchain, ⟨187⟩, ⟨0⟩⟩
    (by decide) (by decide) (by decide) (by decide)

/-- C8: if the cached status of a message id is `Duplicate{..}`, then
`update_message_status` with any `Accepted{..}` status returns `Ok(None)` and
the whole cache state (all three maps) is unchanged. -/
theorem update_message_status_duplicate_drop
    (c : MessageCacheImpl) (id : UInt256) (d : RempDuplicate) (acc_new : RempAccepted)
    (hold : lookupA c.message_statuses id = some (RempMessageStatus.Duplicate d)) :
    MessageCache.update_message_status c id (RempMessageStatus.Accepted acc_new) =
      (Except.ok none, c) := by
  have hob : MessageCache.old_collator_block c id = none := by
    simp [MessageCache.old_collator_block, hold]
  simp [MessageCache.update_message_status, hob, hold]

/-- Witness for C8 at a concrete cache: status `Duplicate{187}`, update with
`Accepted{Masterchain, 204}`. -/
theorem update_message_status_duplicate_drop_witness :
    MessageCache.update_message_status cacheDuplicate ⟨1⟩
        (RempMessageStatus.Accepted ⟨RempMessageLevel.Masterchain, ⟨204⟩, ⟨0⟩⟩) =
      (Except.ok none, cacheDuplicate) :=
  update_message_status_duplicate_drop cacheDuplicate ⟨1⟩ ⟨⟨187⟩⟩
    ⟨RempMessageLevel.Masterchain, ⟨204⟩, ⟨0⟩⟩ (by decide)

/-- C9: `check_message_duplicates` returns `Duplicate(block_id)` exactly when
the stored status is `Accepted` at level `Shardchain` or `Masterchain`;
it returns `Fresh` exactly when some other status is stored (including a
stored `Duplicate{..}`); it returns `Absent` exactly when the id is not in
the cache. -/
theorem check_message_duplicates_spec (c : MessageCacheImpl) (id : UInt256) :
    (∀ b, MessageCache.check_message_duplicates c id = RempDuplicateStatus.Duplicate b ↔
      ∃ acc, lookupA c.message_statuses id = some (RempMessageStatus.Accepted acc) ∧
        (acc.level = RempMessageLevel.Shardchain ∨ acc.level = RempMessageLevel.Masterchain) ∧
        acc.block_id = b) ∧
    (MessageCache.check_message_duplicates c id = RempDuplicateStatus.Fresh ↔
      ∃ st, lookupA c.message_statuses id = some st ∧
        ∀ acc, st = RempMessageStatus.Accepted acc →
          ¬ (acc.level = RempMessageLevel.Shardchain ∨
             acc.level = RempMessageLevel.Masterchain)) ∧
    (MessageCache.check_message_duplicates c id = RempDuplicateStatus.Absent ↔
      lookupA c.message_statuses id = none) := by
  unfold MessageCache.check_message_duplicates MessageCache.get_message_status
  rcases hst : lookupA c.message_statuses id with _ | st
  · simp [hst]
  · cases st with
    | Accepted acc =>
        by_cases hl : acc.level = RempMessageLevel.Shardchain ∨
            acc.level = RempMessageLevel.Masterchain
        · simp [hst, hl]
          tauto
        · simp [hst, hl]
          tauto
    | New => simp [hst]
    | Rejected r => simp [hst]
    | Ignored i => simp [hst]
    | Duplicate d => simp [hst]
    | Timeout => simp [hst]

/-- Witness for C9 at a concrete cache whose stored status is `Duplicate{187}`
(so the result is `Fresh`). -/
theorem check_message_duplicates_spec_witness :
    (∀ b, MessageCache.check_message_duplicates cacheDuplicate ⟨1⟩ =
        RempDuplicateStatus.Duplicate b ↔
      ∃ acc, lookupA cacheDuplicate.message_statuses ⟨1⟩ =
          some (RempMessageStatus.Accepted acc) ∧
        (acc.level = RempMessageLevel.Shardchain ∨ acc.level = RempMessageLevel.Masterchain) ∧
        acc.block_id = b) ∧
    (MessageCache.check_message_duplicates cacheDuplicate ⟨1⟩ = RempDuplicateStatus.Fresh ↔
      ∃ st, lookupA cacheDuplicate.message_statuses ⟨1⟩ = some st ∧
        ∀ acc, st = RempMessageStatus.Accepted acc →
          ¬ (acc.level = RempMessageLevel.Shardchain ∨
             acc.level = RempMessageLevel.Masterchain)) ∧
    (MessageCache.check_message_duplicates cacheDuplicate ⟨1⟩ = RempDuplicateStatus.Absent ↔
      lookupA cacheDuplicate.message_statuses ⟨1⟩ = none) :=
  check_message_duplicates_spec cacheDuplicate ⟨1⟩

/-- C10: `is_expired` computes `master_cc_seqno + 2` in wrapping 32-bit
unsigned arithmetic (release-profile semantics of the `u32` addition): below
the wrap boundary the check agrees with exact arithmetic, while a record with
`master_cc_seqno ≥ 2^32 − 2` is reported expired for every small (nonzero)
`current_cc` even though `master_cc_seqno + 2 ≤ current_cc` fails in exact
integer arithmetic. -/
theorem is_expired_u32_wrap :
    (∀ (m : RmqMessage) (cc : Nat), m.master_cc_seqno < 2 ^ 32 - 2 →
      (RmqMessage.is_expired m cc = true ↔ m.master_cc_seqno + 2 ≤ cc)) ∧
    (∀ (m : RmqMessage) (cc : Nat), 2 ^ 32 - 2 ≤ m.master_cc_seqno →
      m.master_cc_seqno < 2 ^ 32 → 1 ≤ cc → cc < 2 ^ 32 →
      RmqMessage.is_expired m cc = true ∧ ¬ (m.master_cc_seqno + 2 ≤ cc)) := by
  constructor
  · intro m cc h
    simp [RmqMessage.is_expired]
    omega
  · intro m cc h1 h2 h3 h4
    refine ⟨?_, by omega⟩
    simp [RmqMessage.is_expired]
    omega

/-- C5: `new_message_with_shard` is idempotent on `message_id`: when the id is
already cached it returns `(false, size)` and the whole state (all three maps)
is unchanged; when the id is absent it stores the record, sets its status to
`New`, records the shard, and returns `(true, size)` with the grown size. -/
theorem new_message_with_shard_spec (c : MessageCacheImpl) (m : RmqMessage) (sh : ShardIdent) :
    (containsA c.messages m.message_id = true →
      MessageCache.new_message_with_shard c m sh = ((false, c.messages.length), c)) ∧
    (containsA c.messages m.message_id = false →
      (MessageCache.new_message_with_shard c m sh).1 = (true, c.messages.length + 1) ∧
      lookupA (MessageCache.new_message_with_shard c m sh).2.messages m.message_id = some m ∧
      lookupA (MessageCache.new_message_with_shard c m sh).2.message_statuses m.message_id =
        some RempMessageStatus.New ∧
      lookupA (MessageCache.new_message_with_shard c m sh).2.message_shards m.message_id =
        some sh) := by
  constructor
  · intro h
    simp [MessageCache.new_message_with_shard, h]
  · intro h
    simp [MessageCache.new_message_with_shard, h, lookupA_insertA_self,
      length_insertA_of_not_contains c.messages m.message_id m h]

/-- Witness for C5: inserting the sample message into the empty cache (absent
branch), then into a cache that already holds its id (present branch). -/
theorem new_message_with_shard_spec_witness :
    ((MessageCache.new_message_with_shard MessageCacheImpl.new sampleMsg ⟨3⟩).1 =
        (true, MessageCacheImpl.new.messages.length + 1) ∧
      lookupA (MessageCache.new_message_with_shard MessageCacheImpl.new sampleMsg
          ⟨3⟩).2.messages sampleMsg.message_id = some sampleMsg ∧
      lookupA (MessageCache.new_message_with_shard MessageCacheImpl.new sampleMsg
          ⟨3⟩).2.message_statuses sampleMsg.message_id = some RempMessageStatus.New ∧
      lookupA (MessageCache.new_message_with_shard MessageCacheImpl.new sampleMsg
          ⟨3⟩).2.message_shards sampleMsg.message_id = some (⟨3⟩ : ShardIdent)) ∧
    MessageCache.new_message_with_shard cacheAccCollator sampleMsg ⟨4⟩ =
      ((false, cacheAccCollator.messages.length), cacheAccCollator) :=
  ⟨(new_message_with_shard_spec MessageCacheImpl.new sampleMsg ⟨3⟩).2 (by decide),
   (new_message_with_shard_spec cacheAccCollator sampleMsg ⟨4⟩).1 (by decide)⟩

/-- The key-set invariant of §3: a message id is present in all three maps or
in none. -/
def sameKeySet (c : MessageCacheImpl) : Prop :=
  ∀ id : UInt256,
    ((lookupA c.messages id).isSome ↔ (lookupA c.message_shards id).isSome) ∧
    ((lookupA c.messages id).isSome ↔ (lookupA c.message_statuses id).isSome)

theorem store_status_snd (c : MessageCacheImpl) (id : UInt256) (s : RempMessageStatus) :
    (MessageCache.store_status c id s).2 = (MessageCacheImpl.update_message_status c id s).2 := by
  rcases h : MessageCacheImpl.update_message_status c id s with ⟨e, c'⟩
  cases e <;> simp [MessageCache.store_status, h]

theorem sameKeySet_update_impl (c : MessageCacheImpl) (id : UInt256) (ns : RempMessageStatus)
    (h : sameKeySet c) : sameKeySet (MessageCacheImpl.update_message_status c id ns).2 := by
  unfold MessageCacheImpl.update_message_status
  rcases hc : lookupA c.message_statuses id with _ | old
  · simpa using h
  · by_cases hv : validate_status_change old ns
    · simp only [hv, if_true]
      intro id'
      have hh := h id'
      by_cases hid : id = id'
      · subst hid
        simp only [lookupA_insertA, if_pos rfl, hc] at hh ⊢
        simp at hh ⊢
        tauto
      · simpa [lookupA_insertA, hid] using hh
    · simpa [hv] using h

theorem sameKeySet_store_status (c : MessageCacheImpl) (id : UInt256) (s : RempMessageStatus)
    (h : sameKeySet c) : sameKeySet (MessageCache.store_status c id s).2 := by
  rw [store_status_snd]
  exact sameKeySet_update_impl c id s h

/-- C2: each public cache operation — insert (`new_message_with_shard`),
`remove_message`, and `update_message_status` — preserves the invariant that
the three maps have the same key set. -/
theorem cache_ops_preserve_sameKeySet :
    (∀ (c : MessageCacheImpl) (m : RmqMessage) (sh : ShardIdent), sameKeySet c →
      sameKeySet (MessageCache.new_message_with_shard c m sh).2) ∧
    (∀ (c : MessageCacheImpl) (id : UInt256), sameKeySet c →
      sameKeySet (MessageCacheImpl.remove_message c id)) ∧
    (∀ (c : MessageCacheImpl) (id : UInt256) (ns : RempMessageStatus), sameKeySet c →
      sameKeySet (MessageCache.update_message_status c id ns).2) := by
  refine ⟨?_, ?_, ?_⟩
  · intro c m sh h
    unfold MessageCache.new_message_with_shard
    by_cases hc : containsA c.messages m.message_id
    · simpa [hc] using h
    · simp only [hc, Bool.false_eq_true, if_false]
      intro id'
      by_cases hid : m.message_id = id'
      · subst hid
        simp [lookupA_insertA]
      · simpa [lookupA_insertA, hid] using h id'
  · intro c id h id'
    unfold MessageCacheImpl.remove_message
    by_cases hid : id' = id
    · subst hid
      simp [lookupA_removeA]
    · simpa [lookupA_removeA, hid] using h id'
  · intro c id ns h
    unfold MessageCache.update_message_status
    split
    · split
      · split
        · exact sameKeySet_store_status _ _ _ h
        · exact sameKeySet_store_status _ _ _ h
      · split
        · simpa using h
        · exact sameKeySet_store_status _ _ _ h
    · exact sameKeySet_store_status _ _ _ h

/-- Witness for C2: the three operations applied to concrete states that
satisfy the invariant. -/
theorem cache_ops_preserve_sameKeySet_witness :
    sameKeySet (MessageCache.new_message_with_shard MessageCacheImpl.new sampleMsg ⟨3⟩).2 ∧
    sameKeySet (MessageCacheImpl.remove_message cacheAccCollator ⟨1⟩) ∧
    sameKeySet (MessageCache.update_message_status cacheAccCollator ⟨1⟩
      RempMessageStatus.Timeout).2 := by
  have hempty : sameKeySet MessageCacheImpl.new := by
    intro id
    simp [MessageCacheImpl.new, lookupA]
  have hacc : sameKeySet cacheAccCollator := by
    intro id
    by_cases h : (⟨1⟩ : UInt256) = id <;> simp [cacheAccCollator, lookupA, h]
  exact ⟨cache_ops_preserve_sameKeySet.1 MessageCacheImpl.new sampleMsg ⟨3⟩ hempty,
    cache_ops_preserve_sameKeySet.2.1 cacheAccCollator ⟨1⟩ hacc,
    cache_ops_preserve_sameKeySet.2.2 cacheAccCollator ⟨1⟩ RempMessageStatus.Timeout hacc⟩

/-- The level-collapse of §4.2: decoding restores the status with level
`Collator` and (for `Accepted`) `master_id = BlockIdExt::default()`. -/
def collapseStatus : RempMessageStatus → RempMessageStatus
  | RempMessageStatus.Accepted a =>
      RempMessageStatus.Accepted
        { level := RempMessageLevel.Collator, block_id := a.block_id,
          master_id := BlockIdExt.default }
  | RempMessageStatus.Rejected r =>
      RempMessageStatus.Rejected
        { level := RempMessageLevel.Collator, block_id := r.block_id, error := r.error }
  | s => s

/-- C4: for a status in `{New, Accepted(Collator,_), Rejected(Collator,_)}`,
deserializing the serialization of `(m, s)` with a caller-supplied
`master_cc_seqno` yields the record back with `timestamp` taken from the
decoder's clock and `master_cc_seqno` from the supplied value (body,
`message_id`, `source_key` and `source_idx` preserved), and the status back
up to the level-collapse. -/
theorem serialize_deserialize_roundtrip (m : RmqMessage) (s : RempMessageStatus)
    (cc now : Nat) (hidx : m.source_idx < 2 ^ 32)
    (hs : s = RempMessageStatus.New ∨
      (∃ a, s = RempMessageStatus.Accepted a ∧ a.level = RempMessageLevel.Collator) ∨
      (∃ r, s = RempMessageStatus.Rejected r ∧ r.level = RempMessageLevel.Collator)) :
    RmqMessage.deserialize (RmqMessage.serialize m s) cc now =
      ({ m with timestamp := now, master_cc_seqno := cc }, collapseStatus s) := by
  have hround : i32_to_u32 (u32_to_i32 m.source_idx) = m.source_idx := by
    unfold u32_to_i32 i32_to_u32
    by_cases h : m.source_idx < 2 ^ 31
    · simp only [h, if_true]
      omega
    · simp only [h, if_false]
      omega
  rcases hs with h | ⟨a, h, hl⟩ | ⟨r, h, hl⟩ <;> subst h <;>
    simp [RmqMessage.serialize, RmqMessage.deserialize, RmqMessage.serialize_status,
      collapseStatus, hround] <;>
    simp [hl]

/-- Witness for C4: the sample message with status
`Rejected{Collator, block 9, "e"}`, decoded with `master_cc_seqno = 42` at
clock `100`. -/
theorem serialize_deserialize_roundtrip_witness :
    RmqMessage.deserialize
        (RmqMessage.serialize sampleMsg
          (RempMessageStatus.Rejected ⟨RempMessageLevel.Collator, ⟨9⟩, "e"⟩)) 42 100 =
      ({ sampleMsg with timestamp := 100, master_cc_seqno := 42 },
        collapseStatus (RempMessageStatus.Rejected ⟨RempMessageLevel.Collator, ⟨9⟩, "e"⟩)) :=
  serialize_deserialize_roundtrip sampleMsg
    (RempMessageStatus.Rejected ⟨RempMessageLevel.Collator, ⟨9⟩, "e"⟩) 42 100
    (by norm_num [sampleMsg])
    (Or.inr (Or.inr ⟨⟨RempMessageLevel.Collator, ⟨9⟩, "e"⟩, rfl, rfl⟩))

/-- A message whose `master_cc_seqno` sits at the u32 wrap boundary. -/
def wrapMsg : RmqMessage := { sampleMsg with master_cc_seqno := 2 ^ 32 - 2 }

/-- A one-entry cache holding `wrapMsg` with status `New`. -/
def wrapCache : MessageCacheImpl :=
  { messages := [(⟨1⟩, wrapMsg)]
    message_shards := [(⟨1⟩, ⟨0⟩)]
    message_statuses := [(⟨1⟩, RempMessageStatus.New)] }

/-- Counterexample to C3 as stated: with exact integer arithmetic the claim
fails.  At `current_cc = 0`, `get_old_messages` returns the record with
`master_cc_seqno = 2^32 − 2` (the u32 addition wraps to `0 ≤ 0`) although
`master_cc_seqno + 2 ≤ 0` is false. -/
theorem get_old_messages_exact_arith_counterexample :
    (wrapMsg, some RempMessageStatus.Timeout) ∈ MessageCacheImpl.get_old_messages wrapCache 0 ∧
    ¬ (wrapMsg.master_cc_seqno + 2 ≤ 0) := by
  constructor
  · decide
  · decide

/-- C3 (amended): under the key-set invariant (every cached message has a
status), `get_old_messages(current_cc)` returns exactly the records with
`(master_cc_seqno + 2) mod 2^32 ≤ current_cc` (the u32 check of
`is_expired`; equal to `master_cc_seqno + 2 ≤ current_cc` whenever the
addition does not wrap, so `master_cc_seqno = current_cc − 2` is included and
`current_cc − 1` is not), each paired with `None` if its current status is
`Accepted{Masterchain}`, `Rejected` or `Duplicate`, and `Some(Timeout)`
otherwise (`oldMessageStatus`). -/
theorem get_old_messages_characterization (c : MessageCacheImpl) (cc : Nat)
    (hinv : ∀ id : UInt256, (lookupA c.messages id).isSome →
      (lookupA c.message_statuses id).isSome)
    (msg : RmqMessage) (ns : Option RempMessageStatus) :
    (msg, ns) ∈ MessageCacheImpl.get_old_messages c cc ↔
      ∃ (id : UInt256) (st : RempMessageStatus), (id, msg) ∈ c.messages ∧
        lookupA c.message_statuses id = some st ∧
        (msg.master_cc_seqno + 2) % 2 ^ 32 ≤ cc ∧ ns = oldMessageStatus st := by
  unfold MessageCacheImpl.get_old_messages
  rw [List.mem_filterMap]
  constructor
  · rintro ⟨⟨id, m0⟩, hmem, hf⟩
    rcases hst : lookupA c.message_statuses id with _ | st
    · exfalso
      have hS := hinv id (lookupA_isSome_of_mem hmem)
      rw [hst] at hS
      simp at hS
    · simp only [hst] at hf
      by_cases he : RmqMessage.is_expired m0 cc
      · rw [if_pos he] at hf
        obtain ⟨hm, hn⟩ := Prod.mk.injEq .. ▸ Option.some.injEq .. ▸ hf
        refine ⟨id, st, ?_, hst, ?_, hn.symm⟩
        · rwa [hm] at hmem
        · rw [← hm]
          simpa [RmqMessage.is_expired] using he
      · rw [if_neg he] at hf
        cases hf
  · rintro ⟨id, st, hmem, hst, hcc, hns⟩
    refine ⟨(id, msg), hmem, ?_⟩
    have he : RmqMessage.is_expired msg cc = true := by
      simpa [RmqMessage.is_expired] using hcc
    simp [hst, he, hns]

/-- Witness for C3 (amended) at the wrap-boundary cache and `current_cc = 5`. -/
theorem get_old_messages_characterization_witness :
    ((wrapMsg, some RempMessageStatus.Timeout) ∈
        MessageCacheImpl.get_old_messages wrapCache 5 ↔
      ∃ (id : UInt256) (st : RempMessageStatus), (id, wrapMsg) ∈ wrapCache.messages ∧
        lookupA wrapCache.message_statuses id = some st ∧
        (wrapMsg.master_cc_seqno + 2) % 2 ^ 32 ≤ 5 ∧
        (some RempMessageStatus.Timeout : Option RempMessageStatus) = oldMessageStatus st) :=
  get_old_messages_characterization wrapCache 5
    (by
      intro id h
      by_cases hk : (⟨1⟩ : UInt256) = id <;> simp [wrapCache, lookupA, hk] at h ⊢)
    wrapMsg (some RempMessageStatus.Timeout)

/-- Witness for C10: a record with `master_cc_seqno = 3` behaves exactly, and
a record with `master_cc_seqno = 2^32 − 2` is reported expired at
`current_cc = 1` although `2^32 ≤ 1` is false. -/
theorem is_expired_u32_wrap_witness :
    (RmqMessage.is_expired { sampleMsg with master_cc_seqno := 3 } 5 = true ↔ 3 + 2 ≤ 5) ∧
    (RmqMessage.is_expired { sampleMsg with master_cc_seqno := 2 ^ 32 - 2 } 1 = true ∧
      ¬ ((2 ^ 32 - 2 : Nat) + 2 ≤ 1)) :=
  ⟨is_expired_u32_wrap.1 { sampleMsg with master_cc_seqno := 3 } 5 (by norm_num),
   is_expired_u32_wrap.2 { sampleMsg with master_cc_seqno := 2 ^ 32 - 2 } 1
     (by norm_num) (by norm_num) (by norm_num) (by norm_num)⟩

/-- Two distinct next-set members sharing one transport id. -/
def nodeA : CatchainNode := ⟨⟨5⟩, ⟨1⟩⟩

/-- Second node with the same `adnl_id` as `nodeA` but another public key. -/
def nodeB : CatchainNode := ⟨⟨5⟩, ⟨2⟩⟩

/-- Counterexample to C6 as stated: the loop in `RempCatchainInfo::create`
tests next-set members only against the current set's transport ids (the hash
set is never extended), so with an empty current set and two next-set members
sharing a transport id both are kept: the built list differs from the spec's
first-seen-order dedup and contains two entries with the same transport id. -/
theorem computeNodes_dedup_counterexample :
    RempCatchainInfo.computeNodes [] [nodeA, nodeB] ≠ specNodeList [] [nodeA, nodeB] ∧
    ¬ ((RempCatchainInfo.computeNodes [] [nodeA, nodeB]).map
        (fun nn => nn.adnl_id)).Nodup := by
  constructor
  · decide
  · decide

theorem foldl_append_filter (P : CatchainNode → Bool) :
    ∀ (next acc : List CatchainNode),
      next.foldl (fun nodes n => if P n then nodes else nodes ++ [n]) acc =
        acc ++ next.filter (fun n => ! P n) := by
  intro next
  induction next with
  | nil => intro acc; simp
  | cons n ns ih =>
      intro acc
      by_cases h : P n
      · simp [h, ih]
      · simp [h, ih]

/-- C6 (amended): for every pair of validator lists, the ordered node list is
the current set in its order followed by the members of the next set whose
transport id is not among the current set's transport ids, in their order
(members of the next set are not deduplicated against each other — this
characterization holds unconditionally); when the current set and the next
set each contain no internal duplicate transport ids, the resulting list
contains no two entries with the same transport id. -/
theorem computeNodes_spec (curr next : List CatchainNode) :
    RempCatchainInfo.computeNodes curr next =
      curr ++ next.filter
        (fun nn => ! (curr.map (fun x => x.adnl_id)).contains nn.adnl_id) ∧
    ((curr.map (fun nn => nn.adnl_id)).Nodup → (next.map (fun nn => nn.adnl_id)).Nodup →
      ((RempCatchainInfo.computeNodes curr next).map (fun nn => nn.adnl_id)).Nodup) := by
  have heq : RempCatchainInfo.computeNodes curr next =
      curr ++ next.filter
        (fun nn => ! (curr.map (fun x => x.adnl_id)).contains nn.adnl_id) := by
    unfold RempCatchainInfo.computeNodes
    exact foldl_append_filter
      (fun n => (curr.map (fun nn => nn.adnl_id)).contains n.adnl_id) next curr
  refine ⟨heq, ?_⟩
  intro hc hn
  rw [heq, List.map_append, List.nodup_append]
  refine ⟨hc, hn.sublist ((List.filter_sublist next).map _), ?_⟩
  intro x hx1 hx2
  rcases List.mem_map.mp hx2 with ⟨n, hn2, hadnl⟩
  have hpred := (List.mem_filter.mp hn2).2
  simp only [Bool.not_eq_true', List.contains_eq_any_beq] at hpred
  have hmemA : n.adnl_id ∈ curr.map (fun x => x.adnl_id) := hadnl ▸ hx1
  have hany : ((curr.map (fun x => x.adnl_id)).any (fun a => n.adnl_id == a)) = true :=
    List.any_eq_true.mpr ⟨n.adnl_id, hmemA, by simp⟩
  rw [hany] at hpred
  cases hpred

/-- Witness for C6 (amended): the unconditional characterization at the
duplicate-carrying next set `[nodeA, nodeB]` (both members kept), and both
conjuncts — with the internal-distinctness hypotheses discharged — at a
duplicate-free pair of sets. -/
theorem computeNodes_spec_witness :
    (RempCatchainInfo.computeNodes [] [nodeA, nodeB] =
      [] ++ List.filter
        (fun nn => ! (List.map (fun x => x.adnl_id) ([] : List CatchainNode)).contains
          nn.adnl_id) [nodeA, nodeB]) ∧
    (RempCatchainInfo.computeNodes [nodeA] [nodeB, ⟨⟨6⟩, ⟨3⟩⟩] =
      [nodeA] ++ List.filter
        (fun nn => ! (List.map (fun x => x.adnl_id) [nodeA]).contains nn.adnl_id)
        [nodeB, ⟨⟨6⟩, ⟨3⟩⟩]) ∧
    ((RempCatchainInfo.computeNodes [nodeA] [nodeB, ⟨⟨6⟩, ⟨3⟩⟩]).map
        (fun nn => nn.adnl_id)).Nodup :=
  ⟨(computeNodes_spec [] [nodeA, nodeB]).1,
   (computeNodes_spec [nodeA] [nodeB, ⟨⟨6⟩, ⟨3⟩⟩]).1,
   (computeNodes_spec [nodeA] [nodeB, ⟨⟨6⟩, ⟨3⟩⟩]).2 (by decide) (by decide)⟩

/-- C7: `stop_catchain` fails leaving the store unchanged when the entry is
absent or its status is not `Active`; on an `Active` entry it decrements the
refcount: reaching zero, the synchronous step flips the entry to `Stopping`
and after the (externally modelled) stop the entry is deleted and the call
succeeds; with the refcount still positive the entry is retained `Active`
with the decremented count. -/
theorem stop_catchain_spec :
    (∀ (store : RempCatchainStoreState) (id : UInt256), lookupA store id = none →
      RempCatchainStore.stop_catchain store id = (Except.error "session not found", store)) ∧
    (∀ (store : RempCatchainStoreState) (id : UInt256) (w : RempCatchainWrapper),
      lookupA store id = some w → w.status ≠ RempCatchainStatus.Active →
      RempCatchainStore.stop_catchain store id =
        (Except.error "session should be in Active state", store)) ∧
    (∀ (store : RempCatchainStoreState) (id : UInt256) (w : RempCatchainWrapper),
      lookupA store id = some w → w.status = RempCatchainStatus.Active → w.count = 1 →
      (RempCatchainStore.stop_catchain store id).1 = Except.ok () ∧
      lookupA (RempCatchainStore.stop_catchain store id).2 id = none ∧
      lookupA (RempCatchainStore.stop_catchain_sync store id).2 id =
        some { w with status := RempCatchainStatus.Stopping, count := 0 }) ∧
    (∀ (store : RempCatchainStoreState) (id : UInt256) (w : RempCatchainWrapper),
      lookupA store id = some w → w.status = RempCatchainStatus.Active → 2 ≤ w.count →
      (RempCatchainStore.stop_catchain store id).1 =
        Except.error "REMP catchain session already removed" ∧
      lookupA (RempCatchainStore.stop_catchain store id).2 id =
        some { w with count := w.count - 1 }) := by
  refine ⟨?_, ?_, ?_, ?_⟩
  · intro store id h
    simp [RempCatchainStore.stop_catchain, RempCatchainStore.stop_catchain_sync, h]
  · intro store id w h hst
    simp [RempCatchainStore.stop_catchain, RempCatchainStore.stop_catchain_sync, h, hst]
  · intro store id w h hst hcnt
    have hsync : RempCatchainStore.stop_catchain_sync store id =
        (Except.ok (some ()),
          insertA store id { w with status := RempCatchainStatus.Stopping, count := 0 }) := by
      simp [RempCatchainStore.stop_catchain_sync, h, hst, RempCatchainWrapper.detach, hcnt]
    refine ⟨?_, ?_, ?_⟩
    · simp [RempCatchainStore.stop_catchain, hsync]
    · simp [RempCatchainStore.stop_catchain, hsync, lookupA_removeA]
    · simp [hsync, lookupA_insertA_self]
  · intro store id w h hst hcnt
    have hz : ¬ w.count = 0 := by omega
    have hz1 : ¬ w.count - 1 = 0 := by omega
    have hsync : RempCatchainStore.stop_catchain_sync store id =
        (Except.ok none, insertA store id { w with count := w.count - 1 }) := by
      simp [RempCatchainStore.stop_catchain_sync, h, hst, RempCatchainWrapper.detach, hz, hz1]
    constructor
    · simp [RempCatchainStore.stop_catchain, hsync]
    · simp [RempCatchainStore.stop_catchain, hsync, lookupA_insertA_self]

/-- Witness for C7: each branch applied to a one-entry store — absent id,
`Created` status, `Active` with refcount 1, `Active` with refcount 2. -/
theorem stop_catchain_spec_witness :
    RempCatchainStore.stop_catchain [(⟨9⟩, ⟨RempCatchainStatus.Active, 1⟩)] ⟨8⟩ =
      (Except.error "session not found", [(⟨9⟩, ⟨RempCatchainStatus.Active, 1⟩)]) ∧
    RempCatchainStore.stop_catchain [(⟨9⟩, ⟨RempCatchainStatus.Created, 1⟩)] ⟨9⟩ =
      (Except.error "session should be in Active state",
        [(⟨9⟩, ⟨RempCatchainStatus.Created, 1⟩)]) ∧
    ((RempCatchainStore.stop_catchain [(⟨9⟩, ⟨RempCatchainStatus.Active, 1⟩)] ⟨9⟩).1 =
        Except.ok () ∧
      lookupA (RempCatchainStore.stop_catchain
        [(⟨9⟩, ⟨RempCatchainStatus.Active, 1⟩)] ⟨9⟩).2 ⟨9⟩ = none ∧
      lookupA (RempCatchainStore.stop_catchain_sync
        [(⟨9⟩, ⟨RempCatchainStatus.Active, 1⟩)] ⟨9⟩).2 ⟨9⟩ =
        some ⟨RempCatchainStatus.Stopping, 0⟩) ∧
    ((RempCatchainStore.stop_catchain [(⟨9⟩, ⟨RempCatchainStatus.Active, 2⟩)] ⟨9⟩).1 =
        Except.error "REMP catchain session already removed" ∧
      lookupA (RempCatchainStore.stop_catchain
        [(⟨9⟩, ⟨RempCatchainStatus.Active, 2⟩)] ⟨9⟩).2 ⟨9⟩ =
        some ⟨RempCatchainStatus.Active, 1⟩) :=
  ⟨stop_catchain_spec.1 [(⟨9⟩, ⟨RempCatchainStatus.Active, 1⟩)] ⟨8⟩ (by decide),
   stop_catchain_spec.2.1 [(⟨9⟩, ⟨RempCatchainStatus.Created, 1⟩)] ⟨9⟩
     ⟨RempCatchainStatus.Created, 1⟩ (by decide) (by decide),
   stop_catchain_spec.2.2.1 [(⟨9⟩, ⟨RempCatchainStatus.Active, 1⟩)] ⟨9⟩
     ⟨RempCatchainStatus.Active, 1⟩ (by decide) (by decide) (by decide),
   stop_catchain_spec.2.2.2 [(⟨9⟩, ⟨RempCatchainStatus.Active, 2⟩)] ⟨9⟩
     ⟨RempCatchainStatus.Active, 2⟩ (by decide) (by decide) (by decide)⟩

end Evs
